import Mathlib

/-
Verification of the Astrielle progression-and-reward engine
(src/Astrielle_Backend.py). The script redefines its classes in several
iterations; the definitions below embed the final (most complete) version
of each class: Currency, Game (with RunningGame and the fixed IdleGame),
Item (with item_type), Gacha, and User (with use_item).

Python ints are modelled as Int, Python `//` as Int.fdiv (floor division),
dicts with a fixed key set as structures plus a string-keyed interface, the
games dict as an association list in insertion order, and operations that
can raise (KeyError / IndexError) as Except String. random.choice over a
list is modelled by a caller-supplied index taken modulo the list length.
-/

namespace Astrielle

/-- The four currency kinds present in the balances dict of Currency.__init__. -/
inductive Kind where
  | baseCoins
  | bonusCoins
  | milestoneCoins
  | gachaTokens
deriving DecidableEq

/-- The Currency ledger: one integer balance per key of the balances dict.
The key set is fixed at construction: add only updates existing keys and
spend never inserts, so a four-field record is a faithful state. -/
structure Currency where
  baseCoins : Int
  bonusCoins : Int
  milestoneCoins : Int
  gachaTokens : Int
deriving DecidableEq

/-- Currency.__init__: every balance starts at 0. -/
def Currency.init : Currency := ⟨0, 0, 0, 0⟩

def Currency.balance (c : Currency) : Kind → Int
  | .baseCoins => c.baseCoins
  | .bonusCoins => c.bonusCoins
  | .milestoneCoins => c.milestoneCoins
  | .gachaTokens => c.gachaTokens

def Currency.setBalance (c : Currency) : Kind → Int → Currency
  | .baseCoins, v => { c with baseCoins := v }
  | .bonusCoins, v => { c with bonusCoins := v }
  | .milestoneCoins, v => { c with milestoneCoins := v }
  | .gachaTokens, v => { c with gachaTokens := v }

/-- Membership of a string key in the balances dict, as the kind it names. -/
def kindOfString (s : String) : Option Kind :=
  if s = "Base Coins" then some .baseCoins
  else if s = "Bonus Coins" then some .bonusCoins
  else if s = "Milestone Coins" then some .milestoneCoins
  else if s = "Gacha Tokens" then some .gachaTokens
  else none

/-- Currency.add on a recognized kind: balances[k] += amount. -/
def Currency.addK (c : Currency) (k : Kind) (amount : Int) : Currency :=
  c.setBalance k (c.balance k + amount)

/-- Currency.add: `if currency_type in self.balances: self.balances[t] += amount`;
an unrecognized key is silently ignored. -/
def Currency.add (c : Currency) (currency_type : String) (amount : Int) : Currency :=
  match kindOfString currency_type with
  | some k => c.addK k amount
  | none => c

/-- Currency.spend on a recognized kind: decrement and return True iff the
balance is at least the amount, else leave the state and return False. -/
def Currency.spendK (c : Currency) (k : Kind) (amount : Int) : Bool × Currency :=
  if c.balance k ≥ amount then (true, c.setBalance k (c.balance k - amount))
  else (false, c)

/-- Currency.spend: `if self.balances.get(t, 0) >= amount: self.balances[t] -= amount`.
For an unrecognized key, `get` yields 0; when 0 >= amount the decrement
`self.balances[t] -= amount` raises KeyError, otherwise False is returned. -/
def Currency.spend (c : Currency) (currency_type : String) (amount : Int) :
    Except String (Bool × Currency) :=
  match kindOfString currency_type with
  | some k => .ok (c.spendK k amount)
  | none =>
      if (0 : Int) ≥ amount then .error "KeyError"
      else .ok (false, c)

/-- A single ledger call made by a caller, on one of the recognized kinds. -/
inductive Op where
  | add (k : Kind) (a : Int)
  | spend (k : Kind) (a : Int)
deriving DecidableEq

/-- The state change of one ledger call (the boolean result of spend is
returned to the caller and does not affect the ledger). -/
def applyOp (c : Currency) : Op → Currency
  | .add k a => c.addK k a
  | .spend k a => (c.spendK k a).2

/-- A whole call sequence against a freshly constructed ledger. -/
def runOps (ops : List Op) : Currency :=
  ops.foldl applyOp Currency.init

/-- The final Item class: name, rarity, description, item_type. -/
structure Item where
  name : String
  rarity : String
  description : String
  item_type : String
deriving DecidableEq

/-- Gacha.rarity_weights, the fixed rarity → weight dict; lookup of a key
absent from the dict is None (a KeyError at the use site). -/
def rarity_weights (r : String) : Option Nat :=
  if r = "Common" then some 60
  else if r = "Rare" then some 25
  else if r = "Epic" then some 10
  else if r = "Legendary" then some 5
  else none

/-- The Gacha draw engine holds the catalog; construction performs no
validation (Gacha.__init__ only stores the list). -/
structure Gacha where
  items : List Item
deriving DecidableEq

/-- The weighted_items list built inside Gacha.roll: each catalog item
repeated rarity_weights[item.rarity] times, in catalog order; an item whose
rarity is absent from the weight dict raises KeyError. -/
def weightedItems : List Item → Except String (List Item)
  | [] => .ok []
  | it :: rest =>
      match rarity_weights it.rarity with
      | none => .error "KeyError"
      | some w =>
          match weightedItems rest with
          | .ok l => .ok (List.replicate w it ++ l)
          | .error e => .error e

/-- Gacha.roll: build weighted_items, then random.choice picks one element
uniformly; the random draw is modelled by the index k taken mod the length.
random.choice on an empty list raises IndexError. -/
def Gacha.roll (g : Gacha) (k : Nat) : Except String Item :=
  match weightedItems g.items with
  | .error e => .error e
  | .ok wl =>
      if h : 0 < wl.length then
        .ok (wl.get ⟨k % wl.length, Nat.mod_lt k h⟩)
      else .error "IndexError"

/-- The final Game class: name, optional required item, playtime budget. -/
structure Game where
  name : String
  required_item : Option String
  playtime_remaining : Int
deriving DecidableEq

/-- Game.add_playtime: playtime_remaining += time_seconds. -/
def Game.add_playtime (g : Game) (time_seconds : Int) : Game :=
  { g with playtime_remaining := g.playtime_remaining + time_seconds }

/-- Game.play: decrement and return True iff enough playtime remains. -/
def Game.play (g : Game) (time_seconds : Int) : Bool × Game :=
  if g.playtime_remaining ≥ time_seconds then
    (true, { g with playtime_remaining := g.playtime_remaining - time_seconds })
  else (false, g)

/-- RunningGame class constants. -/
def DISTANCE_PER_COIN : Int := 10
def TIME_PER_BONUS_COIN : Int := 30
def MILESTONE_FEET : Int := 1000

/-- dict.get on the games map (an association list in insertion order). -/
def lookupGame (games : List (String × Game)) (n : String) : Option Game :=
  (games.find? (fun p => p.1 == n)).map (fun p => p.2)

/-- RunningGame.progress: credit the ledger with the three floor-division
rewards, then add the elapsed time as playtime to every game in the games
map of the user whose name is not "Running Game". -/
def RunningGame.progress (distance time_seconds : Int) (currency : Currency)
    (games : List (String × Game)) : Currency × List (String × Game) :=
  let c := ((currency.add "Base Coins" (Int.fdiv distance DISTANCE_PER_COIN)).add
      "Bonus Coins" (Int.fdiv time_seconds TIME_PER_BONUS_COIN)).add
      "Milestone Coins" (Int.fdiv distance MILESTONE_FEET)
  (c, games.map (fun p =>
    if p.2.name ≠ "Running Game" then (p.1, p.2.add_playtime time_seconds) else p))

/-- The User (player session) state: ledger, ordered inventory, games map in
insertion order, and the draw engine. -/
structure User where
  name : String
  currency : Currency
  inventory : List Item
  games : List (String × Game)
  gacha : Gacha
deriving DecidableEq

/-- User.load_items: the fixed catalog supplied at construction. -/
def load_items : List Item :=
  [ ⟨"Meteorite Fragment", "Common", "A small chunk of space rock.", "Collectible"⟩,
    ⟨"Mining Laser", "Rare", "Required to play Asteroid Mining.", "Equippable"⟩,
    ⟨"Gravity Boots", "Epic", "Required to play Zero-G Racing.", "Equippable"⟩,
    ⟨"Fuel Cell", "Legendary", "Doubles playtime of any game when used.", "Consumable"⟩ ]

/-- User.__init__: fresh ledger, empty inventory, the four games (Running,
the fixed IdleGame, and the two gated minigames), and a Gacha over the
load_items catalog. Idle-only fields (progress_value, speed_multiplier) are
not touched by any operation modelled here and are omitted. -/
def User.init (name : String) : User :=
  { name := name
    currency := Currency.init
    inventory := []
    games :=
      [ ("Running", ⟨"Running Game", none, 0⟩),
        ("Idle", ⟨"Space Colony Expansion", none, 0⟩),
        ("Asteroid Mining", ⟨"Asteroid Mining", some "Mining Laser", 0⟩),
        ("Zero-G Racing", ⟨"Zero-G Racing", some "Gravity Boots", 0⟩) ]
    gacha := ⟨load_items⟩ }

/-- User.run delegates to the progress method of the Running entity (found at
self.games["Running"], a RunningGame for any session built by User.init). -/
def User.run (u : User) (distance time_seconds : Int) : User :=
  let r := RunningGame.progress distance time_seconds u.currency u.games
  { u with currency := r.1, games := r.2 }

/-- User.roll_gacha: spend one Gacha Token; on success draw, append to the
inventory and return the item; on insufficient tokens return None. -/
def User.roll_gacha (u : User) (k : Nat) : Except String (Option Item × User) :=
  match u.currency.spend "Gacha Tokens" 1 with
  | .error e => .error e
  | .ok (true, c) =>
      match u.gacha.roll k with
      | .error e => .error e
      | .ok item =>
          .ok (some item, { u with currency := c, inventory := u.inventory ++ [item] })
  | .ok (false, _) => .ok (none, u)

/-- The loop test in User.use_item: item.name == item_name and
item.item_type == "Consumable". -/
def matchesConsumable (item_name : String) (it : Item) : Bool :=
  it.name == item_name && it.item_type == "Consumable"

/-- The in-place mutation game.add_playtime(game.playtime_remaining) on the
entry self.games.get(game_name): the first entry with that key has its
playtime added to itself. -/
def doubleGameEntry : List (String × Game) → String → List (String × Game)
  | [], _ => []
  | p :: rest, n =>
      if p.1 == n then (p.1, p.2.add_playtime p.2.playtime_remaining) :: rest
      else p :: doubleGameEntry rest n

/-- The `for item in self.inventory` loop of User.use_item over a suffix of
the inventory: on the first matching Consumable, if the game exists, double
its playtime, remove that item (first occurrence) from the full inventory
and return the success message; otherwise keep scanning; at the end return
the not-found message with no state change. -/
def User.use_item_go (u : User) (item_name game_name : String) :
    List Item → String × User
  | [] => ("Item not found or not usable.", u)
  | it :: rest =>
      if matchesConsumable item_name it then
        match lookupGame u.games game_name with
        | some _ =>
            ("Used " ++ item_name ++ " on " ++ game_name ++ ". Playtime doubled!",
             { u with games := doubleGameEntry u.games game_name,
                      inventory := u.inventory.erase it })
        | none => u.use_item_go item_name game_name rest
      else u.use_item_go item_name game_name rest

/-- User.use_item: run the scan over the whole inventory. -/
def User.use_item (u : User) (item_name game_name : String) : String × User :=
  u.use_item_go item_name game_name u.inventory

/-- Reading a balance after writing one: only the written kind changes. -/
theorem balance_set (c : Currency) (k k2 : Kind) (v : Int) :
    (c.setBalance k v).balance k2 = if k2 = k then v else c.balance k2 := by
  cases k <;> cases k2 <;> simp [Currency.setBalance, Currency.balance]

/-- C3: spend on a recognized kind either leaves the balance unchanged and
returns false, or decreases it by exactly the amount and returns true; the
true branch is taken iff the current balance is at least the amount, there
is never a partial decrement, and no other balance changes. -/
theorem spend_atomic (c : Currency) (s : String) (k : Kind) (a : Int)
    (hk : kindOfString s = some k) :
    c.spend s a = .ok (c.spendK k a) ∧
    ((c.spendK k a).1 = true ↔ a ≤ c.balance k) ∧
    ((c.spendK k a).1 = true →
      (c.spendK k a).2.balance k = c.balance k - a ∧
      ∀ k2, k2 ≠ k → (c.spendK k a).2.balance k2 = c.balance k2) ∧
    ((c.spendK k a).1 = false → (c.spendK k a).2 = c) := by
  refine ⟨by simp [Currency.spend, hk], ?_, ?_, ?_⟩ <;>
      by_cases h : c.balance k ≥ a
  · simp [Currency.spendK, if_pos h, ge_iff_le.mp h]
  · simp [Currency.spendK, if_neg h]
    omega
  · intro _
    refine ⟨by simp [Currency.spendK, if_pos h, balance_set], ?_⟩
    intro k2 hk2
    simp [Currency.spendK, if_pos h, balance_set, hk2]
  · intro hb
    rw [Currency.spendK, if_neg h] at hb
    cases hb
  · intro hb
    rw [Currency.spendK, if_pos h] at hb
    cases hb
  · simp [Currency.spendK, if_neg h]

/-- Witness for spend_atomic: spending 5 Base Coins out of 7 succeeds and
leaves a balance of 2. -/
theorem spend_atomic_witness :
    Currency.spend ⟨7, 0, 0, 0⟩ "Base Coins" 5 = .ok (true, ⟨2, 0, 0, 0⟩) ∧
    ((⟨7, 0, 0, 0⟩ : Currency).spendK .baseCoins 5).2.balance .baseCoins = 2 :=
  ⟨(spend_atomic ⟨7, 0, 0, 0⟩ "Base Coins" .baseCoins 5 rfl).1,
   ((spend_atomic ⟨7, 0, 0, 0⟩ "Base Coins" .baseCoins 5 rfl).2.2.1 rfl).1⟩

/-- C9: spend on a recognized kind with any amount at most the current
balance, including a negative amount, returns true and sets the balance to
the old balance minus the amount; the sign of the amount is not checked. -/
theorem spend_negative (c : Currency) (s : String) (k : Kind) (a : Int)
    (hk : kindOfString s = some k) (h : a ≤ c.balance k) :
    c.spend s a = .ok (true, c.setBalance k (c.balance k - a)) ∧
    (c.setBalance k (c.balance k - a)).balance k = c.balance k - a := by
  constructor
  · simp [Currency.spend, hk, Currency.spendK, h]
  · simp [balance_set]

/-- Witness for spend_negative: spending -5 Base Coins from a zero balance
succeeds and raises the balance to 5. -/
theorem spend_negative_witness :
    Currency.spend Currency.init "Base Coins" (-5) = .ok (true, ⟨5, 0, 0, 0⟩) ∧
    (Currency.setBalance Currency.init .baseCoins
        (Currency.balance Currency.init .baseCoins - (-5))).balance .baseCoins = 5 :=
  spend_negative Currency.init "Base Coins" .baseCoins (-5) rfl (by decide)

/-- C8 counterexample: spend on an unrecognized kind with amount 0 raises
KeyError (the dict get yields 0, the guard 0 >= 0 passes, and the decrement
indexes a missing key) instead of being silently ignored. -/
theorem spend_unknown_counterexample :
    Currency.spend Currency.init "Mystery Coins" 0 = .error "KeyError" := rfl

/-- C8 amended: on an unrecognized kind, add is silently ignored for every
amount, and spend is silently ignored (false, no change) only for positive
amounts; for amounts at most 0 spend raises KeyError. -/
theorem unknown_kind_leniency (c : Currency) (s : String) (a : Int)
    (hs : kindOfString s = none) :
    c.add s a = c ∧
    (0 < a → c.spend s a = .ok (false, c)) ∧
    (a ≤ 0 → c.spend s a = .error "KeyError") := by
  refine ⟨by simp [Currency.add, hs], ?_, ?_⟩
  · intro h
    simp [Currency.spend, hs, show ¬((0 : Int) ≥ a) by omega]
  · intro h
    simp [Currency.spend, hs, show (0 : Int) ≥ a from h]

/-- Witness for unknown_kind_leniency: adding 4 Mystery Coins is a no-op and
spending 4 Mystery Coins returns false without error. -/
theorem unknown_kind_leniency_witness :
    Currency.add Currency.init "Mystery Coins" 4 = Currency.init ∧
    Currency.spend Currency.init "Mystery Coins" 4 = .ok (false, Currency.init) :=
  ⟨(unknown_kind_leniency Currency.init "Mystery Coins" 4 rfl).1,
   (unknown_kind_leniency Currency.init "Mystery Coins" 4 rfl).2.1 (by decide)⟩

/-- C4 counterexample: a single add call with a negative amount drives a
balance of the fresh ledger below zero; amounts are not validated. -/
theorem nonneg_counterexample :
    (runOps [Op.add .baseCoins (-1)]).balance .baseCoins < 0 := by decide

/-- C4 amended: starting from a freshly constructed ledger, no sequence of
add calls with non-negative amounts and arbitrary spend calls can drive any
balance below zero. -/
theorem nonneg_invariant (ops : List Op)
    (hadd : ∀ k a, Op.add k a ∈ ops → 0 ≤ a) :
    ∀ k, 0 ≤ (runOps ops).balance k := by
  have main : ∀ (l : List Op) (c : Currency), (∀ k a, Op.add k a ∈ l → 0 ≤ a) →
      (∀ k, 0 ≤ c.balance k) → ∀ k, 0 ≤ (l.foldl applyOp c).balance k := by
    intro l
    induction l with
    | nil => intro c _ hc k; simpa using hc k
    | cons op rest ih =>
        intro c hl hc k
        refine ih (applyOp c op) (fun k2 a hm => hl k2 a (List.mem_cons_of_mem _ hm)) ?_ k
        intro k2
        cases op with
        | add k0 a =>
            have ha : 0 ≤ a := hl k0 a (List.mem_cons_self _ _)
            have hb := hc k0
            have hb2 := hc k2
            simp only [applyOp, Currency.addK, balance_set]
            split <;> omega
        | spend k0 a =>
            by_cases hcond : c.balance k0 ≥ a
            · have hb2 := hc k2
              simp only [applyOp, Currency.spendK, if_pos hcond, balance_set]
              split <;> omega
            · simpa [applyOp, Currency.spendK, if_neg hcond] using hc k2
  exact main ops Currency.init hadd (by intro k; cases k <;> simp [Currency.init, Currency.balance])

/-- Witness for nonneg_invariant: adding 5 Base Coins then spending 3 keeps
the Base Coins balance at 2, which is non-negative. -/
theorem nonneg_invariant_witness :
    (runOps [Op.add .baseCoins 5, Op.spend .baseCoins 3]).balance .baseCoins = 2 ∧
    0 ≤ (runOps [Op.add .baseCoins 5, Op.spend .baseCoins 3]).balance .baseCoins :=
  ⟨by decide,
   nonneg_invariant [Op.add .baseCoins 5, Op.spend .baseCoins 3]
     (by
       intro k a hm
       simp only [List.mem_cons, List.mem_singleton] at hm
       rcases hm with h | h | h
       · obtain ⟨rfl, rfl⟩ := Op.add.inj h; omega
       · exact absurd h (by simp)
       · exact absurd h (by simp))
     .baseCoins⟩

/-- C1: run(d, t) on a session adds exactly d // 10 Base Coins, t // 30
Bonus Coins and d // 1000 Milestone Coins, leaves Gacha Tokens alone, adds
exactly t seconds of playtime to every owned game other than the Running
entity regardless of unlock state, leaves the Running entity itself
untouched, and changes nothing else of the session. -/
theorem run_rewards (nm : String) (c : Currency) (inv : List Item) (ga : Gacha)
    (grun gidle gmine grace : Game)
    (hrun : grun.name = "Running Game")
    (hidle : gidle.name = "Space Colony Expansion")
    (hmine : gmine.name = "Asteroid Mining")
    (hrace : grace.name = "Zero-G Racing")
    (d t : Int) :
    let u : User := ⟨nm, c, inv,
      [("Running", grun), ("Idle", gidle),
       ("Asteroid Mining", gmine), ("Zero-G Racing", grace)], ga⟩
    let v := u.run d t
    v.currency.balance .baseCoins = c.balance .baseCoins + Int.fdiv d 10 ∧
    v.currency.balance .bonusCoins = c.balance .bonusCoins + Int.fdiv t 30 ∧
    v.currency.balance .milestoneCoins = c.balance .milestoneCoins + Int.fdiv d 1000 ∧
    v.currency.balance .gachaTokens = c.balance .gachaTokens ∧
    v.games =
      [("Running", grun),
       ("Idle", { gidle with playtime_remaining := gidle.playtime_remaining + t }),
       ("Asteroid Mining", { gmine with playtime_remaining := gmine.playtime_remaining + t }),
       ("Zero-G Racing", { grace with playtime_remaining := grace.playtime_remaining + t })] ∧
    v.inventory = inv ∧ v.gacha = ga ∧ v.name = nm := by
  intro u v
  obtain ⟨cb, co, cm, cg⟩ := c
  refine ⟨?_, ?_, ?_, ?_, ?_, rfl, rfl, rfl⟩ <;>
    simp [v, u, User.run, RunningGame.progress, Currency.add, kindOfString,
      Currency.addK, Currency.setBalance, Currency.balance, Game.add_playtime,
      DISTANCE_PER_COIN, TIME_PER_BONUS_COIN, MILESTONE_FEET,
      hrun, hidle, hmine, hrace]

/-- Witness for run_rewards: on a fresh session, run(2500, 120) yields Base
250, Bonus 4, Milestone 2, 0 Gacha Tokens, and 120 seconds of playtime on
each game other than Running, which stays at 0. -/
theorem run_rewards_witness :
    ((User.init "Astrielle Pilot").run 2500 120).currency.balance .baseCoins = 250 ∧
    ((User.init "Astrielle Pilot").run 2500 120).currency.balance .bonusCoins = 4 ∧
    ((User.init "Astrielle Pilot").run 2500 120).currency.balance .milestoneCoins = 2 ∧
    ((User.init "Astrielle Pilot").run 2500 120).currency.balance .gachaTokens = 0 ∧
    ((User.init "Astrielle Pilot").run 2500 120).games =
      [("Running", ⟨"Running Game", none, 0⟩),
       ("Idle", ⟨"Space Colony Expansion", none, 120⟩),
       ("Asteroid Mining", ⟨"Asteroid Mining", some "Mining Laser", 120⟩),
       ("Zero-G Racing", ⟨"Zero-G Racing", some "Gravity Boots", 120⟩)] ∧
    ((User.init "Astrielle Pilot").run 2500 120).inventory = [] ∧
    ((User.init "Astrielle Pilot").run 2500 120).gacha = ⟨load_items⟩ ∧
    ((User.init "Astrielle Pilot").run 2500 120).name = "Astrielle Pilot" :=
  run_rewards "Astrielle Pilot" Currency.init [] ⟨load_items⟩
    ⟨"Running Game", none, 0⟩ ⟨"Space Colony Expansion", none, 0⟩
    ⟨"Asteroid Mining", some "Mining Laser", 0⟩ ⟨"Zero-G Racing", some "Gravity Boots", 0⟩
    rfl rfl rfl rfl 2500 120

/-- Every weight actually present in the rarity_weights dict is positive. -/
theorem rarity_weights_pos {r : String} {w : Nat} (h : rarity_weights r = some w) :
    0 < w := by
  unfold rarity_weights at h
  split_ifs at h <;> simp_all <;> omega

/-- The weighted list is as long as the sum of the per-item weights. -/
theorem weightedItems_length {items wl : List Item}
    (h : weightedItems items = .ok wl) :
    wl.length = (items.map (fun i => (rarity_weights i.rarity).getD 0)).sum := by
  induction items generalizing wl with
  | nil =>
      simp only [weightedItems] at h
      cases h
      simp
  | cons it rest ih =>
      simp only [weightedItems] at h
      cases hw : rarity_weights it.rarity with
      | none => rw [hw] at h; cases h
      | some w =>
          rw [hw] at h
          cases hr : weightedItems rest with
          | error e => rw [hr] at h; cases h
          | ok l =>
              rw [hr] at h
              cases h
              simp [ih hr, hw]

/-- An item absent from the catalog is absent from the weighted list. -/
theorem weightedItems_count_zero {items wl : List Item} {item : Item}
    (h : weightedItems items = .ok wl) (h0 : items.count item = 0) :
    wl.count item = 0 := by
  induction items generalizing wl with
  | nil =>
      simp only [weightedItems] at h
      cases h
      simp
  | cons it rest ih =>
      simp only [weightedItems] at h
      cases hw : rarity_weights it.rarity with
      | none => rw [hw] at h; cases h
      | some w =>
          rw [hw] at h
          cases hr : weightedItems rest with
          | error e => rw [hr] at h; cases h
          | ok l =>
              rw [hr] at h
              cases h
              rw [List.count_cons] at h0
              by_cases hit : it = item
              · simp [hit] at h0
              · have hrest : rest.count item = 0 := by
                  simpa [hit, bne_iff_ne, Ne.symm] using h0
                simp [List.count_append, List.count_replicate, ih hr hrest,
                  beq_iff_eq, Ne.symm hit]
                intro hcontra
                exact absurd hcontra hit

/-- An item occurring once in the catalog occurs weight-of-its-rarity times
in the weighted list. -/
theorem weightedItems_count_one {items wl : List Item} {item : Item}
    (h : weightedItems items = .ok wl) (h1 : items.count item = 1) :
    wl.count item = (rarity_weights item.rarity).getD 0 := by
  induction items generalizing wl with
  | nil => simp at h1
  | cons it rest ih =>
      simp only [weightedItems] at h
      cases hw : rarity_weights it.rarity with
      | none => rw [hw] at h; cases h
      | some w =>
          rw [hw] at h
          cases hr : weightedItems rest with
          | error e => rw [hr] at h; cases h
          | ok l =>
              rw [hr] at h
              cases h
              rw [List.count_cons] at h1
              by_cases hit : it = item
              · have hrest : rest.count item = 0 := by
                  simpa [hit] using h1
                subst hit
                simp [List.count_append, List.count_replicate,
                  weightedItems_count_zero hr hrest, hw]
              · have hrest : rest.count item = 1 := by
                  simpa [hit, bne_iff_ne, Ne.symm] using h1
                simp [List.count_append, List.count_replicate, ih hr hrest,
                  beq_iff_eq, Ne.symm hit]
                intro hcontra
                exact absurd hcontra hit

/-- When the weighted list builds successfully, every catalog member has a
rarity present in the weight dict. -/
theorem weightedItems_rarity_some {items wl : List Item} {item : Item}
    (h : weightedItems items = .ok wl) (hmem : item ∈ items) :
    ∃ w, rarity_weights item.rarity = some w := by
  induction items generalizing wl with
  | nil => cases hmem
  | cons it rest ih =>
      simp only [weightedItems] at h
      cases hwr : rarity_weights it.rarity with
      | none => rw [hwr] at h; cases h
      | some w =>
          rw [hwr] at h
          cases hr : weightedItems rest with
          | error e => rw [hr] at h; cases h
          | ok l =>
              rcases List.mem_cons.mp hmem with hcase | hcase
              · exact ⟨w, hcase ▸ hwr⟩
              · exact ih hr hcase

/-- C2: roll selects uniformly from the multiset in which each catalog item
appears exactly weight-of-its-rarity many times: for an item listed once in
the catalog, its number of copies in the weighted list is its rarity weight,
the length of that list is the sum of the weights of all catalog items, and
every draw index returns the entry of the weighted list at that index mod
its length, so the draw probability of the item is its rarity weight over
the total weight (per-item-replicated, not per-bucket-then-uniform). -/
theorem roll_distribution (g : Gacha) (wl : List Item) (item : Item)
    (hw : weightedItems g.items = .ok wl)
    (h1 : g.items.count item = 1) :
    wl.count item = (rarity_weights item.rarity).getD 0 ∧
    wl.length = (g.items.map (fun i => (rarity_weights i.rarity).getD 0)).sum ∧
    ∀ k : Nat, ∃ hk : k % wl.length < wl.length,
      g.roll k = .ok (wl.get ⟨k % wl.length, hk⟩) := by
  have hmem : item ∈ g.items := by
    have : 0 < g.items.count item := by omega
    exact List.count_pos_iff.mp this
  obtain ⟨w, hwr⟩ := weightedItems_rarity_some hw hmem
  have hcount := weightedItems_count_one hw h1
  have hpos : 0 < wl.length := by
    have hwpos : 0 < w := rarity_weights_pos hwr
    have : 0 < wl.count item := by rw [hcount, hwr]; simpa using hwpos
    have hm : item ∈ wl := List.count_pos_iff.mp this
    exact List.length_pos.mpr (List.ne_nil_of_mem hm)
  refine ⟨hcount, weightedItems_length hw, ?_⟩
  intro k
  refine ⟨Nat.mod_lt k hpos, ?_⟩
  simp [Gacha.roll, hw, hpos]

/-- Witness for roll_distribution: in the weighted list of the fixed
catalog, the Rare Mining Laser appears 25 times out of 100. -/
theorem roll_distribution_witness :
    ((weightedItems load_items).toOption.getD []).count
        ⟨"Mining Laser", "Rare", "Required to play Asteroid Mining.", "Equippable"⟩ = 25 ∧
    ((weightedItems load_items).toOption.getD []).length = 100 :=
  ⟨(roll_distribution ⟨load_items⟩ ((weightedItems load_items).toOption.getD [])
      ⟨"Mining Laser", "Rare", "Required to play Asteroid Mining.", "Equippable"⟩
      rfl (by decide)).1,
   (roll_distribution ⟨load_items⟩ ((weightedItems load_items).toOption.getD [])
      ⟨"Mining Laser", "Rare", "Required to play Asteroid Mining.", "Equippable"⟩
      rfl (by decide)).2.1⟩

/-- C7 counterexample: construction validates nothing, so the error cases
surface at roll time: a Gacha built over an empty catalog rolls into
IndexError and one whose item has an unknown rarity rolls into KeyError. -/
theorem roll_validation_counterexample :
    Gacha.roll ⟨[]⟩ 0 = .error "IndexError" ∧
    Gacha.roll ⟨[⟨"Star Shard", "Mythic", "Unknown rarity item.", "Collectible"⟩]⟩ 0 =
      .error "KeyError" := ⟨rfl, rfl⟩

/-- C7 amended: roll never fails on a non-empty catalog whose every rarity
is in the weight table; however nothing is validated at construction, and
an empty catalog or unknown rarity makes roll itself fail. -/
theorem roll_total (g : Gacha) (k : Nat)
    (hne : g.items ≠ [])
    (hr : ∀ it ∈ g.items, (rarity_weights it.rarity).isSome) :
    (g.roll k).toOption.isSome = true := by
  have hok : ∀ (l : List Item), (∀ it ∈ l, (rarity_weights it.rarity).isSome) →
      ∃ wl, weightedItems l = .ok wl := by
    intro l hl
    induction l with
    | nil => exact ⟨[], rfl⟩
    | cons it rest ih =>
        obtain ⟨w, hw⟩ := Option.isSome_iff_exists.mp (hl it (List.mem_cons_self _ _))
        obtain ⟨wl, hwl⟩ := ih (fun j hj => hl j (List.mem_cons_of_mem _ hj))
        exact ⟨List.replicate w it ++ wl, by simp [weightedItems, hw, hwl]⟩
  obtain ⟨items⟩ := g
  simp only at hne hr ⊢
  obtain ⟨wl, hwl⟩ := hok items hr
  obtain ⟨it0, rest, rfl⟩ := List.exists_cons_of_ne_nil hne
  obtain ⟨w0, hw0⟩ := Option.isSome_iff_exists.mp (hr it0 (List.mem_cons_self _ _))
  have hpos : 0 < wl.length := by
    rw [weightedItems_length hwl]
    have := rarity_weights_pos hw0
    simp [hw0]
    omega
  simp [Gacha.roll, hwl, hpos, Except.toOption]

/-- Witness for roll_total: rolling the fixed catalog at index 0 succeeds. -/
theorem roll_total_witness :
    ((Gacha.roll ⟨load_items⟩ 0).toOption.isSome = true) :=
  roll_total ⟨load_items⟩ 0 (by decide) (by decide)

/-- C5: roll_gacha with a zero Gacha Tokens balance returns None and changes
nothing; with a balance of at least 1 it decrements Gacha Tokens by exactly
1, appends the one drawn item to the end of the inventory, returns that
item, and touches no other state; on the fixed catalog the draw itself
always succeeds. -/
theorem roll_gacha_spec (nm : String) (c : Currency) (inv : List Item)
    (gs : List (String × Game)) (k : Nat) :
    let u : User := ⟨nm, c, inv, gs, ⟨load_items⟩⟩
    (c.balance .gachaTokens = 0 → u.roll_gacha k = .ok (none, u)) ∧
    (∃ item0, Gacha.roll ⟨load_items⟩ k = .ok item0) ∧
    (1 ≤ c.balance .gachaTokens → ∀ item, Gacha.roll ⟨load_items⟩ k = .ok item →
      u.roll_gacha k =
        .ok (some item,
          ⟨nm, c.setBalance .gachaTokens (c.balance .gachaTokens - 1),
           inv ++ [item], gs, ⟨load_items⟩⟩) ∧
      (c.setBalance .gachaTokens (c.balance .gachaTokens - 1)).balance .gachaTokens =
        c.balance .gachaTokens - 1 ∧
      ∀ k2, k2 ≠ Kind.gachaTokens →
        (c.setBalance .gachaTokens (c.balance .gachaTokens - 1)).balance k2 =
          c.balance k2) := by
  intro u
  refine ⟨?_, ⟨_, rfl⟩, ?_⟩
  · intro h0
    simp [u, User.roll_gacha, Currency.spend, kindOfString, Currency.spendK, h0]
  · intro h1 item hitem
    have hcond : c.balance .gachaTokens ≥ 1 := h1
    refine ⟨?_, by simp [balance_set], ?_⟩
    · simp [u, User.roll_gacha, Currency.spend, kindOfString, Currency.spendK,
        if_pos hcond, hitem]
    · intro k2 hk2
      simp [balance_set, hk2]

/-- Witness for roll_gacha_spec: a fresh session rolls None, and a session
holding 3 Gacha Tokens rolls the Common item at index 0, dropping to 2
tokens with the item appended. -/
theorem roll_gacha_spec_witness :
    (User.init "Astrielle Pilot").roll_gacha 0 = .ok (none, User.init "Astrielle Pilot") ∧
    ((⟨"A", ⟨0, 0, 0, 3⟩, [], [], ⟨load_items⟩⟩ : User).roll_gacha 0 =
      .ok (some ⟨"Meteorite Fragment", "Common", "A small chunk of space rock.", "Collectible"⟩,
        ⟨"A", ⟨0, 0, 0, 2⟩,
         [⟨"Meteorite Fragment", "Common", "A small chunk of space rock.", "Collectible"⟩],
         [], ⟨load_items⟩⟩)) :=
  ⟨(roll_gacha_spec "Astrielle Pilot" Currency.init []
      [("Running", ⟨"Running Game", none, 0⟩),
       ("Idle", ⟨"Space Colony Expansion", none, 0⟩),
       ("Asteroid Mining", ⟨"Asteroid Mining", some "Mining Laser", 0⟩),
       ("Zero-G Racing", ⟨"Zero-G Racing", some "Gravity Boots", 0⟩)] 0).1 rfl,
   ((roll_gacha_spec "A" ⟨0, 0, 0, 3⟩ [] [] 0).2.2 (by decide) _ rfl).1⟩

/-- Looking up any other key is unchanged by doubling one entry. -/
theorem lookupGame_doubleGameEntry_ne (gs : List (String × Game)) (gn n : String)
    (h : n ≠ gn) :
    lookupGame (doubleGameEntry gs gn) n = lookupGame gs n := by
  induction gs with
  | nil => rfl
  | cons p rest ih =>
      simp only [doubleGameEntry]
      by_cases hp : p.1 = gn
      · rw [if_pos (by simpa using hp)]
        have hn : (p.1 == n) = false := by simp [hp, Ne.symm h]
        simp [lookupGame, List.find?_cons_of_neg, hn]
      · rw [if_neg (by simpa using hp)]
        by_cases hpn : p.1 = n
        · simp [lookupGame, List.find?_cons_of_pos, hpn]
        · have hn : (p.1 == n) = false := by simp [hpn]
          simpa [lookupGame, List.find?_cons_of_neg, hn] using ih

/-- Looking up the doubled key returns the old entry with its playtime
added to itself. -/
theorem lookupGame_doubleGameEntry_eq (gs : List (String × Game)) (gn : String)
    (g : Game) (h : lookupGame gs gn = some g) :
    lookupGame (doubleGameEntry gs gn) gn =
      some (g.add_playtime g.playtime_remaining) := by
  induction gs with
  | nil => cases h
  | cons p rest ih =>
      by_cases hp : p.1 = gn
      · have hval : g = p.2 := by
          have : lookupGame (p :: rest) gn = some p.2 := by
            simp [lookupGame, List.find?_cons_of_pos, hp]
          rw [this] at h
          cases h
          rfl
        subst hval
        simp [doubleGameEntry, hp, lookupGame, List.find?_cons_of_pos]
      · have hrest : lookupGame rest gn = some g := by
          have hn : (p.1 == gn) = false := by simp [hp]
          simpa [lookupGame, List.find?_cons_of_neg, hn] using h
        have hn : (p.1 == gn) = false := by simp [hp]
        simpa [doubleGameEntry, hp, lookupGame, List.find?_cons_of_neg, hn]
          using ih hrest

/-- The use_item scan, when the target game exists: the first matching
Consumable triggers the doubling, the removal of that one item from the
full inventory, and the success message. -/
theorem use_item_go_found (u : User) (inm gnm : String)
    (hg : (lookupGame u.games gnm).isSome) :
    ∀ (l : List Item) (it : Item), l.find? (matchesConsumable inm) = some it →
      u.use_item_go inm gnm l =
        ("Used " ++ inm ++ " on " ++ gnm ++ ". Playtime doubled!",
         { u with games := doubleGameEntry u.games gnm,
                  inventory := u.inventory.erase it }) := by
  intro l
  induction l with
  | nil => intro it h; cases h
  | cons x rest ih =>
      intro it h
      cases hx : matchesConsumable inm x with
      | true =>
          rw [List.find?_cons_of_pos _ hx] at h
          cases h
          obtain ⟨g0, hg0⟩ := Option.isSome_iff_exists.mp hg
          simp [User.use_item_go, hx, hg0]
      | false =>
          rw [List.find?_cons_of_neg _ (by simp [hx])] at h
          simpa [User.use_item_go, hx] using ih it h

/-- The use_item scan with no matching Consumable anywhere: not-found, no
state change. -/
theorem use_item_go_notfound (u : User) (inm gnm : String) :
    ∀ l : List Item, l.find? (matchesConsumable inm) = none →
      u.use_item_go inm gnm l = ("Item not found or not usable.", u) := by
  intro l
  induction l with
  | nil => intro _; rfl
  | cons x rest ih =>
      intro h
      rw [List.find?_cons] at h
      cases hx : matchesConsumable inm x with
      | true => rw [hx] at h; cases h
      | false =>
          rw [hx] at h
          simpa [User.use_item_go, hx] using ih h

/-- The use_item scan against a game name that is not a key of the games
map: every matching item falls into the None branch and the scan continues,
ending in not-found with no state change. -/
theorem use_item_go_nogame (u : User) (inm gnm : String)
    (hg : lookupGame u.games gnm = none) :
    ∀ l : List Item, u.use_item_go inm gnm l = ("Item not found or not usable.", u) := by
  intro l
  induction l with
  | nil => rfl
  | cons x rest ih =>
      cases hx : matchesConsumable inm x with
      | true => simpa [User.use_item_go, hx, hg] using ih
      | false => simpa [User.use_item_go, hx] using ih

/-- Erasing the first element found by a predicate lowers the number of
matches by exactly one. -/
theorem countP_erase_first {α : Type} [DecidableEq α] (p : α → Bool) :
    ∀ (l : List α) (a : α), l.find? p = some a →
      (l.erase a).countP p + 1 = l.countP p := by
  intro l
  induction l with
  | nil => intro a h; cases h
  | cons x rest ih =>
      intro a h
      cases hx : p x with
      | true =>
          rw [List.find?_cons_of_pos _ hx] at h
          cases h
          rw [List.erase_cons_head]
          simp [List.countP_cons, hx]
      | false =>
          rw [List.find?_cons_of_neg _ (by simp [hx])] at h
          have hpa : p a = true := List.find?_some h
          have hne : (x == a) = false := by
            refine beq_eq_false_iff_ne.mpr ?_
            rintro rfl
            rw [hx] at hpa
            cases hpa
          rw [List.erase_cons, if_neg (by simp [hne])]
          simp only [List.countP_cons, hx, if_neg]
          simpa [hx] using ih a h

/-- C6: use_item scans the inventory in order for the first item with the
given name and the Consumable usage category; when the target game exists,
finding one doubles that game by adding its current playtime to itself,
removes exactly one copy of the item (the others stay in order), and
returns the success message, while finding none returns the not-found
message and changes no state. -/
theorem use_item_spec (u : User) (item_name game_name : String) (g : Game)
    (hg : lookupGame u.games game_name = some g) :
    (∀ it, u.inventory.find? (matchesConsumable item_name) = some it →
        u.use_item item_name game_name =
          ("Used " ++ item_name ++ " on " ++ game_name ++ ". Playtime doubled!",
           { u with games := doubleGameEntry u.games game_name,
                    inventory := u.inventory.erase it }) ∧
        lookupGame (doubleGameEntry u.games game_name) game_name =
          some { g with playtime_remaining := g.playtime_remaining + g.playtime_remaining } ∧
        (∀ n, n ≠ game_name →
          lookupGame (doubleGameEntry u.games game_name) n = lookupGame u.games n) ∧
        (u.inventory.erase it).countP (matchesConsumable item_name) + 1 =
          u.inventory.countP (matchesConsumable item_name)) ∧
    (u.inventory.find? (matchesConsumable item_name) = none →
        u.use_item item_name game_name = ("Item not found or not usable.", u)) := by
  constructor
  · intro it hit
    refine ⟨use_item_go_found u item_name game_name (by simp [hg]) u.inventory it hit,
      ?_, ?_, countP_erase_first _ u.inventory it hit⟩
    · simpa [Game.add_playtime] using
        lookupGame_doubleGameEntry_eq u.games game_name g hg
    · intro n hn
      exact lookupGame_doubleGameEntry_ne u.games game_name n hn
  · intro hnone
    exact use_item_go_notfound u item_name game_name u.inventory hnone

/-- Witness for use_item_spec: with two Fuel Cells in the inventory and the
target game at 50 seconds, use_item leaves the game at 100 seconds, exactly
one Fuel Cell removed, and returns the success message. -/
theorem use_item_spec_witness :
    (⟨"A", Currency.init,
      [⟨"Fuel Cell", "Legendary", "Doubles playtime of any game when used.", "Consumable"⟩,
       ⟨"Fuel Cell", "Legendary", "Doubles playtime of any game when used.", "Consumable"⟩],
      [("Asteroid Mining", ⟨"Asteroid Mining", some "Mining Laser", 50⟩)],
      ⟨load_items⟩⟩ : User).use_item "Fuel Cell" "Asteroid Mining" =
      ("Used Fuel Cell on Asteroid Mining. Playtime doubled!",
       ⟨"A", Currency.init,
        [⟨"Fuel Cell", "Legendary", "Doubles playtime of any game when used.", "Consumable"⟩],
        [("Asteroid Mining", ⟨"Asteroid Mining", some "Mining Laser", 100⟩)],
        ⟨load_items⟩⟩) ∧
    ([⟨"Fuel Cell", "Legendary", "Doubles playtime of any game when used.", "Consumable"⟩]
        : List Item).countP (matchesConsumable "Fuel Cell") + 1 =
      ([⟨"Fuel Cell", "Legendary", "Doubles playtime of any game when used.", "Consumable"⟩,
        ⟨"Fuel Cell", "Legendary", "Doubles playtime of any game when used.", "Consumable"⟩]
        : List Item).countP (matchesConsumable "Fuel Cell") := by
  have h := (use_item_spec
    ⟨"A", Currency.init,
      [⟨"Fuel Cell", "Legendary", "Doubles playtime of any game when used.", "Consumable"⟩,
       ⟨"Fuel Cell", "Legendary", "Doubles playtime of any game when used.", "Consumable"⟩],
      [("Asteroid Mining", ⟨"Asteroid Mining", some "Mining Laser", 50⟩)],
      ⟨load_items⟩⟩ "Fuel Cell" "Asteroid Mining"
    ⟨"Asteroid Mining", some "Mining Laser", 50⟩ rfl).1
    ⟨"Fuel Cell", "Legendary", "Doubles playtime of any game when used.", "Consumable"⟩ rfl
  exact ⟨h.1, h.2.2.2⟩

/-- C10: use_item with a matching Consumable present but a game name that is
not a key of the games map returns the not-found outcome and changes no
state: the item is not consumed and no game entity changes. -/
theorem use_item_unknown_game (u : User) (item_name game_name : String)
    (hg : lookupGame u.games game_name = none)
    (hit : (u.inventory.find? (matchesConsumable item_name)).isSome) :
    u.use_item item_name game_name = ("Item not found or not usable.", u) :=
  use_item_go_nogame u item_name game_name hg u.inventory

/-- Witness for use_item_unknown_game: a Fuel Cell is in the inventory but
the game name Warp Gate is unknown, so nothing changes. -/
theorem use_item_unknown_game_witness :
    (⟨"A", Currency.init,
      [⟨"Fuel Cell", "Legendary", "Doubles playtime of any game when used.", "Consumable"⟩],
      [("Asteroid Mining", ⟨"Asteroid Mining", some "Mining Laser", 50⟩)],
      ⟨load_items⟩⟩ : User).use_item "Fuel Cell" "Warp Gate" =
      ("Item not found or not usable.",
       ⟨"A", Currency.init,
        [⟨"Fuel Cell", "Legendary", "Doubles playtime of any game when used.", "Consumable"⟩],
        [("Asteroid Mining", ⟨"Asteroid Mining", some "Mining Laser", 50⟩)],
        ⟨load_items⟩⟩) :=
  use_item_unknown_game
    ⟨"A", Currency.init,
      [⟨"Fuel Cell", "Legendary", "Doubles playtime of any game when used.", "Consumable"⟩],
      [("Asteroid Mining", ⟨"Asteroid Mining", some "Mining Laser", 50⟩)],
      ⟨load_items⟩⟩ "Fuel Cell" "Warp Gate" rfl rfl

end Astrielle
